import Mathlib

/-!
Shallow embedding of the Sketchris game core (src/sketchris.js).

The arena is a 20x10 grid of cells, each empty (`none`) or tagged with the
piece kind that locked there.  The active piece, spawn queue, score state and
the emitted audio cues are collected in `GameState`.  Every operation below is
a direct transcription of the corresponding function in the source file;
imperative mutation becomes explicit state passing, the `while` loops become
fuel-bounded recursion, and the classifier is treated as an external oracle
whose result is a parameter.
-/

namespace Sketchris

/-- The seven tetromino identities, matching `PIECE_CODES = ['I','J','L','O','S','T','Z']`. -/
inductive PieceType where
  | I | J | L | O | S | T | Z
deriving DecidableEq, Repr

/-- An arena cell: empty (`null` in the source) or a locked piece kind tag. -/
abbrev Cell := Option PieceType

abbrev RowT := List Cell

abbrev Arena := List RowT

/-- `const ROWS = 20`. -/
def ROWS : Nat := 20

/-- `const COLS = 10`. -/
def COLS : Nat := 10

/-- Board offset of the active piece (`pos: {x, y}`). -/
structure Pos where
  x : Int
  y : Int
deriving DecidableEq, Repr

/-- The `player` object: position, current shape matrix (or `null`), rotation
index and piece kind. -/
structure Player where
  pos : Pos
  matrix : Option (List (List Nat))
  rot : Nat
  type : Cell
deriving DecidableEq, Repr

/-- The three audio cue events the core emits (`summon`, `lock`, `line`). -/
inductive Cue where
  | summon | lock | line
deriving DecidableEq, Repr

/-- The whole mutable module state of the game core: `arena`, `player`,
`queue`, `score`/`level`/`cleared`, plus the ordered log of emitted cues. -/
structure GameState where
  arena : Arena
  player : Player
  queue : List PieceType
  score : Nat
  level : Nat
  cleared : Nat
  cues : List Cue
deriving DecidableEq, Repr

/-- The `SHAPES` catalog: for each piece kind, the list of its four rotation
state matrices, transcribed literally from the source. -/
def SHAPES : PieceType → List (List (List Nat))
  | .I => [[[0,0,0,0],[1,1,1,1],[0,0,0,0],[0,0,0,0]],
           [[0,0,1,0],[0,0,1,0],[0,0,1,0],[0,0,1,0]],
           [[0,0,0,0],[0,0,0,0],[1,1,1,1],[0,0,0,0]],
           [[0,1,0,0],[0,1,0,0],[0,1,0,0],[0,1,0,0]]]
  | .O => [[[1,1],[1,1]],
           [[1,1],[1,1]],
           [[1,1],[1,1]],
           [[1,1],[1,1]]]
  | .T => [[[0,1,0],[1,1,1],[0,0,0]],
           [[0,1,0],[0,1,1],[0,1,0]],
           [[0,0,0],[1,1,1],[0,1,0]],
           [[0,1,0],[1,1,0],[0,1,0]]]
  | .S => [[[0,1,1],[1,1,0],[0,0,0]],
           [[0,1,0],[0,1,1],[0,0,1]],
           [[0,0,0],[0,1,1],[1,1,0]],
           [[1,0,0],[1,1,0],[0,1,0]]]
  | .Z => [[[1,1,0],[0,1,1],[0,0,0]],
           [[0,0,1],[0,1,1],[0,1,0]],
           [[0,0,0],[1,1,0],[0,1,1]],
           [[0,1,0],[1,1,0],[1,0,0]]]
  | .J => [[[1,0,0],[1,1,1],[0,0,0]],
           [[0,1,1],[0,1,0],[0,1,0]],
           [[0,0,0],[1,1,1],[0,0,1]],
           [[0,1,0],[0,1,0],[1,1,0]]]
  | .L => [[[0,0,1],[1,1,1],[0,0,0]],
           [[0,1,0],[0,1,0],[0,1,1]],
           [[0,0,0],[1,1,1],[1,0,0]],
           [[1,1,0],[0,1,0],[0,1,0]]]

/-- `SHAPES[code][0]`, the default rotation used by `createPiece`. -/
def shape0 (c : PieceType) : List (List Nat) := (SHAPES c).getD 0 []

/-- `rotateMatrix(m)`: the 90-degree rotation `ret[x][N-1-y] = m[y][x]` of an
NxN matrix; equivalently `ret[x][j] = m[N-1-j][x]`. -/
def rotateMatrix (m : List (List Nat)) : List (List Nat) :=
  let N := m.length
  (List.range N).map fun x => (List.range N).map fun j => (m.getD (N - 1 - j) []).getD x 0

/-- `collide(arena, piece)`: true when some filled cell of the matrix,
translated by `pos`, leaves `[0,ROWS) x [0,COLS)` or overlaps an occupied
arena cell. -/
def collide (arena : Arena) (matrix : List (List Nat)) (pos : Pos) : Bool :=
  (List.range matrix.length).any fun y =>
    (List.range ((matrix.getD y []).length)).any fun x =>
      ((matrix.getD y []).getD x 0 != 0) &&
        (let ay : Int := (y : Int) + pos.y
         let ax : Int := (x : Int) + pos.x
         decide (ay < 0) || decide ((ROWS : Int) ≤ ay) ||
         decide (ax < 0) || decide ((COLS : Int) ≤ ax) ||
         ((arena.getD ay.toNat []).getD ax.toNat none).isSome)

/-- In-bounds write of one arena cell (out-of-range writes are never reached
by `merge` because locking only happens after a passed collision check). -/
def writeCell (a : Arena) (ay ax : Int) (v : Cell) : Arena :=
  if 0 ≤ ay ∧ 0 ≤ ax then a.set ay.toNat ((a.getD ay.toNat []).set ax.toNat v) else a

/-- `merge(arena, piece)`: writes the piece's filled cells (tagged with its
kind, `piece.type`) into the arena. -/
def merge (a : Arena) (m : List (List Nat)) (pos : Pos) (t : Cell) : Arena :=
  (List.range m.length).foldl (fun acc y =>
    (List.range ((m.getD y []).length)).foldl (fun acc2 x =>
      if (m.getD y []).getD x 0 ≠ 0 then
        writeCell acc2 ((y : Int) + pos.y) ((x : Int) + pos.x) t
      else acc2) acc) a

/-- The inner loop of `clearLines`: a row is full when all `COLS` cells are
occupied (`!arena[y][x]` jumps to the next row). -/
def rowFull (r : RowT) : Bool :=
  (List.range COLS).all fun x => (r.getD x none).isSome

/-- The scan loop of `clearLines`: `y` runs from the bottom row upward; a full
row is spliced out, refilled with `null` and unshifted on top, and the same
index is re-examined (`y++` before the loop's `y--`).  The `fuel` bounds the
iteration count (each step removes a full row or moves `y` up one). -/
def clearScan (fuel y : Nat) (a : List RowT) (lines : Nat) : List RowT × Nat :=
  match fuel with
  | 0 => (a, lines)
  | f + 1 =>
    if rowFull (a.getD y []) then
      clearScan f y (((a.getD y []).map fun _ => (none : Cell)) :: a.eraseIdx y) (lines + 1)
    else if y = 0 then (a, lines)
    else clearScan f (y - 1) a lines

/-- `clearLines` restricted to its arena effect: the compacted arena and the
number of rows removed.  `2*len+1` fuel is enough: the scan takes one step per
full row plus one per row index. -/
def clearLinesArena (a : List RowT) : List RowT × Nat :=
  clearScan (2 * a.length + 1) (a.length - 1) a 0

/-- `onLinesCleared(n)`: score/level/lines bookkeeping.  Returns the new
`(score, level, cleared)`. -/
def onLinesCleared (n score level cleared : Nat) : Nat × Nat × Nat :=
  let points := ([0, 40, 100, 300, 1200].getD n 0)
  let score2 := score + points * level
  let cleared2 := cleared + n
  let level2 := if level * 10 ≤ cleared2 then level + 1 else level
  (score2, level2, cleared2)

/-- The full `clearLines()` call on the game state: compact the arena; when at
least one row cleared, emit the `line` cue and run `onLinesCleared`. -/
def clearStep (s : GameState) : GameState :=
  let r := clearLinesArena s.arena
  if 0 < r.2 then
    let t := onLinesCleared r.2 s.score s.level s.cleared
    { s with
      arena := r.1, score := t.1, level := t.2.1, cleared := t.2.2,
      cues := s.cues ++ [Cue.line] }
  else { s with arena := r.1 }

/-- `createPiece(code)` as installed into `player` by `spawnNext`: default
rotation matrix, rotation index 0, spawn offset (3,0). -/
def spawnPlayer (c : PieceType) : Player :=
  { pos := ⟨3, 0⟩, matrix := some (shape0 c), rot := 0, type := some c }

/-- `arena.forEach(r => r.fill(null))`: the in-place game-over wipe. -/
def clearArena (a : Arena) : Arena := a.map fun r => r.map fun _ => (none : Cell)

/-- `spawnNext()`: pop the front of the queue (`getNextCode`); with an empty
queue, deactivate the piece and wait for drawing; otherwise install the new
piece and, if it collides at the spawn offset, perform the game-over reset
(arena wiped, score zeroed, level back to 1, lines zeroed). -/
def spawnNext (s : GameState) : GameState :=
  match s.queue with
  | [] => { s with player := { s.player with matrix := none } }
  | c :: rest =>
    let pl := spawnPlayer c
    let s2 := { s with player := pl, queue := rest }
    if collide s2.arena (shape0 c) pl.pos then
      { s2 with arena := clearArena s2.arena, score := 0, level := 1, cleared := 0 }
    else s2

/-- `onPadReleased()` with the classifier treated as an oracle whose result is
the `predicted` argument: a no-op while a piece is active (or before the game
is ready, not modelled); otherwise the `summon` cue fires, the predicted code
is `unshift`ed onto the queue and `spawnNext` runs.  `predictPad` always
returns one of the seven non-empty code strings, so the `if(pieceCode)` branch
always succeeds. -/
def onPadReleased (s : GameState) (predicted : PieceType) : GameState :=
  if s.player.matrix.isSome then s
  else
    let s1 := { s with cues := s.cues ++ [Cue.summon] }
    spawnNext { s1 with queue := predicted :: s1.queue }

/-- `playerMove(dir)`: shift the piece, revert on collision.  There is no
`Idle` guard in the source: with `player.matrix === null` the call reaches
`collide`, which throws a `TypeError` reading `null.length` after `pos.x` has
already been mutated.  The result pairs the post-call state with the raised
error, if any. -/
def playerMove (s : GameState) (dir : Int) : GameState × Option String :=
  let moved := { s with player :=
    { s.player with pos := { s.player.pos with x := s.player.pos.x + dir } } }
  match s.player.matrix with
  | none => (moved, some "TypeError: matrix is null")
  | some m =>
    if collide moved.arena m moved.player.pos then (s, none) else (moved, none)

/-- `playerDrop()` (soft drop): step one row down; on collision revert the
step, merge, emit the `lock` cue, run `clearLines`, deactivate the piece and
call `spawnNext`. -/
def playerDrop (s : GameState) : GameState :=
  match s.player.matrix with
  | none => s
  | some m =>
    let down := { s.player with pos := { s.player.pos with y := s.player.pos.y + 1 } }
    if collide s.arena m down.pos then
      let s1 := { s with
        arena := merge s.arena m s.player.pos s.player.type,
        cues := s.cues ++ [Cue.lock] }
      let s2 := clearStep s1
      spawnNext { s2 with player := { s2.player with matrix := none } }
    else { s with player := down }

/-- The hard-drop `while(true)` loop body: step down until collision, then
revert the last step, merge, run `clearLines` and call `spawnNext` — with no
`lock` cue and no explicit deactivation of the piece. -/
def hardDropAux (fuel : Nat) (s : GameState) (m : List (List Nat)) : GameState :=
  match fuel with
  | 0 => s
  | f + 1 =>
    let down := { s.player with pos := { s.player.pos with y := s.player.pos.y + 1 } }
    if collide s.arena m down.pos then
      spawnNext (clearStep { s with arena := merge s.arena m s.player.pos s.player.type })
    else hardDropAux f { s with player := down } m

/-- The hard-drop key handler: guarded by `if(!player.matrix) return`. -/
def hardDrop (fuel : Nat) (s : GameState) : GameState :=
  match s.player.matrix with
  | none => s
  | some m => hardDropAux fuel s m

/-- Hard drop as the specification words it: repeat the one-row vertical step
until collision, then perform the same lock sequence as `softDrop`
(`playerDrop`) once. -/
def hardDropSpecAux (fuel : Nat) (s : GameState) (m : List (List Nat)) : GameState :=
  match fuel with
  | 0 => s
  | f + 1 =>
    let down := { s.player with pos := { s.player.pos with y := s.player.pos.y + 1 } }
    if collide s.arena m down.pos then playerDrop s
    else hardDropSpecAux f { s with player := down } m

/-- Specification-side hard drop (see `hardDropSpecAux`). -/
def hardDropSpec (fuel : Nat) (s : GameState) : GameState :=
  match s.player.matrix with
  | none => s
  | some m => hardDropSpecAux fuel s m

/-- The wall-kick loop of `playerRotate`: try each column offset in order, keep
the rotated matrix at the first non-colliding offset; exhaustion restores the
original matrix and `pos.x` exactly, leaving the state unchanged. -/
def kickLoop (s : GameState) (rotated : List (List Nat)) (oldX : Int) :
    List Int → GameState
  | [] => s
  | k :: ks =>
    if collide s.arena rotated ⟨oldX + k, s.player.pos.y⟩ then
      kickLoop s rotated oldX ks
    else
      { s with player := { s.player with
          matrix := some rotated,
          pos := ⟨oldX + k, s.player.pos.y⟩ } }

/-- `playerRotate()`: guarded on an active piece; the kick order is
`[0, 1, -1, 2, -2]`.  The rotation index `player.rot` is never touched. -/
def playerRotate (s : GameState) : GameState :=
  match s.player.matrix with
  | none => s
  | some m => kickLoop s (rotateMatrix m) s.player.pos.x ([0, 1, -1, 2, -2] : List Int)

/-- The arena, player, queue and score fields of a state — everything except
the cue log. -/
def coreOf (s : GameState) : Arena × Player × List PieceType × Nat × Nat × Nat :=
  (s.arena, s.player, s.queue, s.score, s.level, s.cleared)

/-- An all-empty 20x10 arena, as built by `createMatrix()`. -/
def emptyArena : Arena := List.replicate ROWS (List.replicate COLS (none : Cell))

/-- The module state right after boot (`spawnNext(); update();` with an empty
queue leaves the initial state unchanged). -/
def initState : GameState :=
  { arena := emptyArena
    player := { pos := ⟨3, 0⟩, matrix := none, rot := 0, type := none }
    queue := [], score := 0, level := 1, cleared := 0, cues := [] }

/-- One externally triggered transition of the game core: a control-surface
command, a gravity tick (also `playerDrop`), or a pad release with some
classified piece kind.  `playerMove` contributes its post-call state even when
it raises. -/
inductive Step : GameState → GameState → Prop where
  | move (s : GameState) (d : Int) : Step s (playerMove s d).1
  | rotate (s : GameState) : Step s (playerRotate s)
  | softDrop (s : GameState) : Step s (playerDrop s)
  | hard (s : GameState) (fuel : Nat) : Step s (hardDrop fuel s)
  | padRelease (s : GameState) (c : PieceType) : Step s (onPadReleased s c)

/-- States reachable from boot through any sequence of transitions. -/
inductive Reachable : GameState → Prop where
  | init : Reachable initState
  | step {s s2 : GameState} : Reachable s → Step s s2 → Reachable s2

/-- A state with an active T piece at the spawn offset and one queued piece. -/
def exActiveQueued : GameState :=
  { initState with
    player := { initState.player with
      matrix := some (shape0 PieceType.T), type := some PieceType.T }
    queue := [PieceType.I] }

/-- An idle state with one piece already queued. -/
def exIdleQueued : GameState := { initState with queue := [PieceType.I] }

/-- An idle state whose arena blocks the O spawn footprint at (3,0), with one
queued O piece and a non-trivial score state. -/
def exSpawnBlocked : GameState :=
  { initState with
    arena := emptyArena.set 0 ((List.replicate COLS (none : Cell)).set 3 (some PieceType.I))
    queue := [PieceType.O], score := 500, level := 3, cleared := 25 }

/-- A state with an active O piece over an empty arena. -/
def exHardO : GameState :=
  { initState with
    player := { initState.player with
      matrix := some (shape0 PieceType.O), type := some PieceType.O } }

/-- A state with an active T piece over an empty arena. -/
def exRotT : GameState :=
  { initState with
    player := { initState.player with
      matrix := some (shape0 PieceType.T), type := some PieceType.T } }

/-- A 20x10 arena whose bottom row is completely occupied. -/
def fullBottomArena : Arena :=
  List.replicate 19 (List.replicate COLS (none : Cell))
    ++ [List.replicate COLS (some PieceType.I)]

end Sketchris

namespace Sketchris

/-! ## Claim theorems -/

/-- Claim C9 (confirmed): for every piece kind and every rotation state of its
shape matrix, applying the 90-degree rotation four times yields the original
matrix entry for entry. -/
theorem rotate_four_times_id (c : PieceType) :
    ∀ m ∈ SHAPES c, rotateMatrix (rotateMatrix (rotateMatrix (rotateMatrix m))) = m := by
  cases c <;> decide

/-- Witness for `rotate_four_times_id` at the I piece's first rotation state. -/
theorem rotate_four_times_id_witness :
    shape0 PieceType.I ∈ SHAPES PieceType.I ∧
    rotateMatrix (rotateMatrix (rotateMatrix (rotateMatrix (shape0 PieceType.I))))
      = shape0 PieceType.I :=
  ⟨by decide, rotate_four_times_id PieceType.I (shape0 PieceType.I) (by decide)⟩

/-- Claim C2 (code bug): describes the divergence.  In the live pipeline
`onPadReleased` inserts the classified kind at the FRONT of the queue
(`queue.unshift`), not at the back as the claim (and the source's own comment
"we integrate predictions by appending to queue end") state: with `I` already
queued and a classification completing with `J`, the code spawns `J` and
leaves `I` waiting, instead of spawning `I`. -/
theorem queue_unshift_divergence :
    (onPadReleased exIdleQueued PieceType.J).player.type = some PieceType.J ∧
    (onPadReleased exIdleQueued PieceType.J).queue = [PieceType.I] := by
  decide

/-- Claim C3 (code bug): describes the divergence.  Soft drop, hard drop and
rotate are indeed no-ops while Idle, but `playerMove` has no Idle guard: with
`player.matrix === null` it mutates `pos.x` and then raises a `TypeError`
inside `collide`, instead of terminating normally with the state unchanged. -/
theorem idle_commands_divergence :
    (playerMove initState (-1)).2.isSome = true ∧
    (playerMove initState (-1)).1.player.pos.x = 2 ∧
    playerDrop initState = initState ∧
    playerRotate initState = initState ∧
    hardDrop 25 initState = initState := by
  decide

/-- Claim C1 counterexample: with an active piece and a non-empty queue,
`spawnNext` is not a no-op — it consumes the queue and replaces the active
piece's matrix. -/
theorem spawnNext_active_counterexample :
    exActiveQueued.player.matrix.isSome = true ∧
    (spawnNext exActiveQueued).queue ≠ exActiveQueued.queue ∧
    (spawnNext exActiveQueued).player.matrix ≠ exActiveQueued.player.matrix := by
  decide

/-- Claim C1 (corrected): the one-piece invariant is defended in the caller,
not in `spawnNext` itself.  While the controller is Active the pad-release
pipeline (`onPadReleased`) is a complete no-op; `spawnNext` itself, called
while Active, deactivates the piece when the queue is empty and dequeues a
replacement piece when it is not. -/
theorem spawn_guard_in_caller (s : GameState) (c : PieceType)
    (h : s.player.matrix.isSome = true) :
    onPadReleased s c = s ∧
    (s.queue = [] → spawnNext s = { s with player := { s.player with matrix := none } }) ∧
    (∀ c0 rest, s.queue = c0 :: rest →
      (spawnNext s).player.matrix = some (shape0 c0) ∧ (spawnNext s).queue = rest) := by
  refine ⟨by simp [onPadReleased, h], ?_, ?_⟩
  · intro hq
    simp [spawnNext, hq]
  · intro c0 rest hq
    simp only [spawnNext, hq]
    split <;> simp [spawnPlayer]

/-- Witness for `spawn_guard_in_caller` at a concrete Active state. -/
theorem spawn_guard_in_caller_witness :
    exActiveQueued.player.matrix.isSome = true ∧
    onPadReleased exActiveQueued PieceType.S = exActiveQueued ∧
    (spawnNext exActiveQueued).player.matrix = some (shape0 PieceType.I) ∧
    (spawnNext exActiveQueued).queue = [] :=
  ⟨by decide,
   (spawn_guard_in_caller exActiveQueued PieceType.S (by decide)).1,
   ((spawn_guard_in_caller exActiveQueued PieceType.S (by decide)).2.2
     PieceType.I [] rfl).1,
   ((spawn_guard_in_caller exActiveQueued PieceType.S (by decide)).2.2
     PieceType.I [] rfl).2⟩

/-- Claim C4 counterexample: the game-over reset does not zero the level — it
resets it to 1.  Here a queued O piece collides at the spawn offset (3,0) and
after the reset the level is 1, not 0. -/
theorem spawn_reset_level_counterexample :
    collide exSpawnBlocked.arena (shape0 PieceType.O) (⟨3, 0⟩ : Pos) = true ∧
    (spawnNext exSpawnBlocked).level ≠ 0 ∧ (spawnNext exSpawnBlocked).level = 1 := by
  decide

/-- Claim C4 (corrected): when the freshly spawned piece collides at the spawn
offset (3,0), `spawnNext` performs a full game-over reset — every arena cell
becomes empty, score and lines-cleared-total are zeroed, and the level is
reset to its initial value 1 (not 0); the spawn itself is total and never
raises. -/
theorem spawn_collision_reset (s : GameState) (c : PieceType) (rest : List PieceType)
    (hq : s.queue = c :: rest)
    (hc : collide s.arena (shape0 c) (⟨3, 0⟩ : Pos) = true) :
    spawnNext s = { s with
      arena := clearArena s.arena, player := spawnPlayer c, queue := rest,
      score := 0, level := 1, cleared := 0 } ∧
    ∀ r ∈ (spawnNext s).arena, ∀ cell ∈ r, cell = none := by
  have hmain : spawnNext s = { s with
      arena := clearArena s.arena, player := spawnPlayer c, queue := rest,
      score := 0, level := 1, cleared := 0 } := by
    simp only [spawnNext, hq]
    have : collide s.arena (shape0 c) (spawnPlayer c).pos = true := hc
    simp [this]
  refine ⟨hmain, ?_⟩
  rw [hmain]
  intro r hr cell hcell
  simp only [clearArena, List.mem_map] at hr
  obtain ⟨r0, _, rfl⟩ := hr
  simp only [List.mem_map] at hcell
  obtain ⟨c0, _, rfl⟩ := hcell
  rfl

/-- Witness for `spawn_collision_reset` at a concrete blocked spawn. -/
theorem spawn_collision_reset_witness :
    exSpawnBlocked.queue = [PieceType.O] ∧
    collide exSpawnBlocked.arena (shape0 PieceType.O) (⟨3, 0⟩ : Pos) = true ∧
    spawnNext exSpawnBlocked = { exSpawnBlocked with
      arena := clearArena exSpawnBlocked.arena, player := spawnPlayer PieceType.O,
      queue := [], score := 0, level := 1, cleared := 0 } :=
  ⟨rfl, by decide,
   (spawn_collision_reset exSpawnBlocked PieceType.O [] rfl (by decide)).1⟩

/-- Claim C8 (confirmed): one lock event clearing n rows at level L adds
`[0,40,100,300,1200][n] * L` to the score and n to the lines total; a lock
event clearing 0 rows (no full rows, so `onLinesCleared` is not invoked)
leaves the score unchanged. -/
theorem scoring_table (n score level cleared : Nat) (s : GameState)
    (h0 : (clearLinesArena s.arena).2 = 0) :
    (onLinesCleared 1 score level cleared).1 = score + 40 * level ∧
    (onLinesCleared 2 score level cleared).1 = score + 100 * level ∧
    (onLinesCleared 3 score level cleared).1 = score + 300 * level ∧
    (onLinesCleared 4 score level cleared).1 = score + 1200 * level ∧
    (onLinesCleared n score level cleared).2.2 = cleared + n ∧
    (clearStep s).score = s.score := by
  refine ⟨rfl, rfl, rfl, rfl, rfl, ?_⟩
  simp [clearStep, h0]

/-- Witness for `scoring_table` at concrete inputs. -/
theorem scoring_table_witness :
    (clearLinesArena initState.arena).2 = 0 ∧
    ((onLinesCleared 1 500 3 25).1 = 500 + 40 * 3 ∧
     (onLinesCleared 2 500 3 25).1 = 500 + 100 * 3 ∧
     (onLinesCleared 3 500 3 25).1 = 500 + 300 * 3 ∧
     (onLinesCleared 4 500 3 25).1 = 500 + 1200 * 3 ∧
     (onLinesCleared 2 500 3 25).2.2 = 25 + 2 ∧
     (clearStep initState).score = initState.score) :=
  ⟨by decide, scoring_table 2 500 3 25 initState (by decide)⟩

/-- The kick loop accepts exactly the first offset in the list whose rotated
placement does not collide, and leaves the state unchanged when every offset
collides. -/
theorem kickLoop_find (s : GameState) (rotated : List (List Nat)) (oldX : Int)
    (ks : List Int) :
    (match ks.find? (fun k => !collide s.arena rotated ⟨oldX + k, s.player.pos.y⟩) with
     | some k => kickLoop s rotated oldX ks =
         { s with player := { s.player with
             matrix := some rotated, pos := ⟨oldX + k, s.player.pos.y⟩ } }
     | none => kickLoop s rotated oldX ks = s) := by
  induction ks with
  | nil => simp [kickLoop]
  | cons k ks ih =>
    cases hk : collide s.arena rotated ⟨oldX + k, s.player.pos.y⟩ with
    | true => simpa [kickLoop, List.find?_cons, hk] using ih
    | false => simp [kickLoop, List.find?_cons, hk]

/-- Claim C6 (confirmed): `playerRotate` tries the wall-kick offsets in the
fixed order [0, +1, -1, +2, -2]; the first offset whose rotated placement does
not collide is accepted (rotated matrix, kicked column), and when all five
collide the piece's matrix and position are exactly as before the call, with
no error surfaced. -/
theorem playerRotate_wall_kicks (s : GameState) (m : List (List Nat))
    (h : s.player.matrix = some m) :
    (match ([0, 1, -1, 2, -2] : List Int).find?
        (fun k => !collide s.arena (rotateMatrix m)
          ⟨s.player.pos.x + k, s.player.pos.y⟩) with
     | some k => playerRotate s =
         { s with player := { s.player with
             matrix := some (rotateMatrix m),
             pos := ⟨s.player.pos.x + k, s.player.pos.y⟩ } }
     | none => playerRotate s = s) := by
  have hk := kickLoop_find s (rotateMatrix m) s.player.pos.x ([0, 1, -1, 2, -2] : List Int)
  simpa [playerRotate, h] using hk

/-- Witness for `playerRotate_wall_kicks`: a T piece over an empty arena
rotates in place (offset 0 accepted). -/
theorem playerRotate_wall_kicks_witness :
    exRotT.player.matrix = some (shape0 PieceType.T) ∧
    playerRotate exRotT =
      { exRotT with player := { exRotT.player with
          matrix := some (rotateMatrix (shape0 PieceType.T)),
          pos := ⟨3, 0⟩ } } :=
  ⟨rfl, playerRotate_wall_kicks exRotT (shape0 PieceType.T) rfl⟩

/-- `clearLines` never touches the player. -/
theorem clearStep_player_eq (s : GameState) : (clearStep s).player = s.player := by
  simp only [clearStep]
  split <;> rfl

/-- `spawnNext` keeps the rotation index at 0 (it writes `rot = 0` on spawn
and leaves the player otherwise untouched). -/
theorem spawnNext_rot_zero (s : GameState) (h : s.player.rot = 0) :
    (spawnNext s).player.rot = 0 := by
  cases hq : s.queue with
  | nil => simpa [spawnNext, hq] using h
  | cons c rest =>
    simp only [spawnNext, hq]
    split <;> simp [spawnPlayer]

/-- `playerMove` leaves the rotation index untouched, also on its crashing
Idle path. -/
theorem playerMove_rot_zero (s : GameState) (d : Int) (h : s.player.rot = 0) :
    (playerMove s d).1.player.rot = 0 := by
  cases hm : s.player.matrix with
  | none => simpa [playerMove, hm] using h
  | some m =>
    simp only [playerMove, hm]
    split <;> simpa using h

/-- The wall-kick loop never touches the rotation index. -/
theorem kickLoop_rot_zero (s : GameState) (rotated : List (List Nat)) (oldX : Int)
    (ks : List Int) (h : s.player.rot = 0) :
    (kickLoop s rotated oldX ks).player.rot = 0 := by
  induction ks with
  | nil => simpa [kickLoop] using h
  | cons k ks ih =>
    simp only [kickLoop]
    split
    · exact ih
    · simpa using h

/-- `playerRotate` never updates the rotation index. -/
theorem playerRotate_rot_zero (s : GameState) (h : s.player.rot = 0) :
    (playerRotate s).player.rot = 0 := by
  cases hm : s.player.matrix with
  | none => simpa [playerRotate, hm] using h
  | some m =>
    simp only [playerRotate, hm]
    exact kickLoop_rot_zero s (rotateMatrix m) s.player.pos.x _ h

/-- Soft drop keeps the rotation index at 0. -/
theorem playerDrop_rot_zero (s : GameState) (h : s.player.rot = 0) :
    (playerDrop s).player.rot = 0 := by
  cases hm : s.player.matrix with
  | none => simpa [playerDrop, hm] using h
  | some m =>
    simp only [playerDrop, hm]
    split
    · apply spawnNext_rot_zero
      simpa [clearStep_player_eq] using h
    · simpa using h

/-- The hard-drop loop keeps the rotation index at 0. -/
theorem hardDropAux_rot_zero (m : List (List Nat)) :
    ∀ (fuel : Nat) (s : GameState), s.player.rot = 0 →
      (hardDropAux fuel s m).player.rot = 0 := by
  intro fuel
  induction fuel with
  | zero => intro s h; simpa [hardDropAux] using h
  | succ f ih =>
    intro s h
    simp only [hardDropAux]
    split
    · apply spawnNext_rot_zero
      simpa [clearStep_player_eq] using h
    · exact ih _ (by simpa using h)

/-- The hard-drop handler keeps the rotation index at 0. -/
theorem hardDrop_rot_zero (s : GameState) (fuel : Nat) (h : s.player.rot = 0) :
    (hardDrop fuel s).player.rot = 0 := by
  cases hm : s.player.matrix with
  | none => simpa [hardDrop, hm] using h
  | some m =>
    simp only [hardDrop, hm]
    exact hardDropAux_rot_zero m fuel s h

/-- The pad-release pipeline keeps the rotation index at 0. -/
theorem onPadReleased_rot_zero (s : GameState) (c : PieceType) (h : s.player.rot = 0) :
    (onPadReleased s c).player.rot = 0 := by
  cases hm : s.player.matrix.isSome with
  | true => simpa [onPadReleased, hm] using h
  | false =>
    simp only [onPadReleased, hm, Bool.false_eq_true, if_false]
    apply spawnNext_rot_zero
    simpa using h

/-- Claim C10 (confirmed): in every reachable state the active piece's
rotation-index field equals 0 — every spawn path writes 0 and no operation,
including a successful `playerRotate`, ever updates it. -/
theorem rot_index_always_zero (s : GameState) (h : Reachable s) :
    s.player.rot = 0 := by
  induction h with
  | init => rfl
  | step _ hstep ih =>
    cases hstep with
    | move d => exact playerMove_rot_zero _ d ih
    | rotate => exact playerRotate_rot_zero _ ih
    | softDrop => exact playerDrop_rot_zero _ ih
    | hard fuel => exact hardDrop_rot_zero _ fuel ih
    | padRelease c => exact onPadReleased_rot_zero _ c ih

/-- Witness for `rot_index_always_zero` at the boot state. -/
theorem rot_index_always_zero_witness :
    Reachable initState ∧ initState.player.rot = 0 :=
  ⟨Reachable.init, rot_index_always_zero initState Reachable.init⟩

/-- Claim C5 counterexample: hard-dropping an O piece over an empty arena
locks the piece without emitting the `lock` cue, while the spec-side lock
sequence (the one `playerDrop` performs) emits it — so hard drop is not
"exactly the same lock sequence". -/
theorem hardDrop_missing_lock_cue_counterexample :
    (hardDrop 25 exHardO).cues = [] ∧ (hardDropSpec 25 exHardO).cues = [Cue.lock] := by
  decide

/-- The descent loops of `hardDrop` and of its specification agree on every
field except the cue log, where hard drop omits exactly the `lock` cue. -/
theorem hardDropAux_vs_spec (m : List (List Nat)) :
    ∀ (fuel : Nat) (s : GameState), s.player.matrix = some m → s.cues = [] →
      coreOf (hardDropAux fuel s m) = coreOf (hardDropSpecAux fuel s m) ∧
      (hardDropAux fuel s m).cues = ((hardDropSpecAux fuel s m).cues).erase Cue.lock := by
  intro fuel
  induction fuel with
  | zero =>
    intro s _ hc
    exact ⟨rfl, by simp [hardDropAux, hardDropSpecAux, hc]⟩
  | succ f ih =>
    rintro ⟨a, ⟨pp, pm, pr, pt⟩, q, sc, lv, cl, cs⟩ hm hc
    dsimp only at hm hc
    subst hm
    subst hc
    simp only [hardDropAux, hardDropSpecAux]
    cases hcol : collide a m ⟨pp.x, pp.y + 1⟩ with
    | false =>
      simp only [hcol, Bool.false_eq_true, if_false]
      exact ih _ rfl rfl
    | true =>
      simp only [hcol, if_true, playerDrop, clearStep, spawnNext]
      cases q with
      | nil =>
        by_cases hlines : 0 < (clearLinesArena (merge a m pp pt)).2 <;>
          simp [coreOf, hlines]
      | cons c0 rest =>
        by_cases hlines : 0 < (clearLinesArena (merge a m pp pt)).2 <;>
          by_cases hsp : collide (clearLinesArena (merge a m pp pt)).1 (shape0 c0)
            (spawnPlayer c0).pos <;>
          simp [coreOf, hlines, hsp]

/-- Claim C5 (corrected): `hardDrop` repeats the one-row vertical step until
collision and then performs the `softDrop` lock sequence EXCEPT that it emits
no `lock` cue and does not itself deactivate the piece before requesting the
next spawn (deactivation then happens inside `spawnNext`).  The resulting
arena, player, queue and score state coincide with the softDrop lock path;
only the `lock` cue is missing from the emitted cues. -/
theorem hardDrop_vs_softDrop_lock (fuel : Nat) (s : GameState) (h : s.cues = []) :
    coreOf (hardDrop fuel s) = coreOf (hardDropSpec fuel s) ∧
    (hardDrop fuel s).cues = ((hardDropSpec fuel s).cues).erase Cue.lock := by
  cases hm : s.player.matrix with
  | none =>
    constructor <;> simp [hardDrop, hardDropSpec, hm, h]
  | some m =>
    simp only [hardDrop, hardDropSpec, hm]
    exact hardDropAux_vs_spec m fuel s hm h

/-- Witness for `hardDrop_vs_softDrop_lock` at a concrete O-piece drop. -/
theorem hardDrop_vs_softDrop_lock_witness :
    exHardO.cues = [] ∧
    (coreOf (hardDrop 25 exHardO) = coreOf (hardDropSpec 25 exHardO) ∧
     (hardDrop 25 exHardO).cues = ((hardDropSpec 25 exHardO).cues).erase Cue.lock) :=
  ⟨rfl, hardDrop_vs_softDrop_lock 25 exHardO rfl⟩

/-- An empty row is never full. -/
theorem rowFull_nil_eq : rowFull ([] : RowT) = false := by decide

/-- A row wiped to all-`none` cells is never full (the row the scan unshifts
on top after a removal). -/
theorem rowFull_map_none (r : RowT) (h : r.length = COLS) :
    rowFull (r.map fun _ => (none : Cell)) = false := by
  have hmap : (r.map fun _ => (none : Cell)) = List.replicate COLS (none : Cell) := by
    rw [List.map_const', h]
  rw [hmap]
  decide

/-- A list splits into the sublist kept by a filter and the one rejected. -/
theorem length_filter_split (p : RowT → Bool) (l : List RowT) :
    (l.filter p).length + (l.filter fun x => !p x).length = l.length := by
  induction l with
  | nil => rfl
  | cons x xs ih =>
    cases hx : p x <;> simp [List.filter_cons, hx] <;> omega

/-- The bottom-to-top compaction scan of `clearLines`, characterized: provided
every row strictly below index `y` is already known non-full and the fuel
covers the remaining work, the scan ends with one fresh empty row on top per
full row, above all the non-full rows in their original order, and reports the
number of full rows. -/
theorem clearScan_correct :
    ∀ (fuel y : Nat) (a : List RowT) (lines : Nat),
      y < a.length →
      (∀ r ∈ a, r.length = COLS) →
      (∀ i, y < i → rowFull (a.getD i []) = false) →
      (a.filter rowFull).length + y + 1 ≤ fuel →
      clearScan fuel y a lines =
        (List.replicate (a.filter rowFull).length (List.replicate COLS (none : Cell))
           ++ a.filter (fun r => !rowFull r),
         lines + (a.filter rowFull).length) := by
  intro fuel
  induction fuel with
  | zero =>
    intro y a lines _ _ _ hf
    omega
  | succ f ih =>
    intro y a lines hy hrow hbelow hf
    have hgetD : a.getD y [] = a[y] := List.getD_eq_getElem a [] hy
    simp only [clearScan]
    rw [hgetD]
    cases hfull : rowFull a[y] with
    | true =>
      simp only [if_true]
      have hymem : a[y] ∈ a := List.getElem_mem hy
      have hylen : (a[y] : RowT).length = COLS := hrow _ hymem
      have hhead : ((a[y] : RowT).map fun _ => (none : Cell))
          = List.replicate COLS (none : Cell) := by
        rw [List.map_const', hylen]
      have hheadNF : rowFull ((a[y] : RowT).map fun _ => (none : Cell)) = false := by
        rw [hhead]
        decide
      have hheadNF2 : rowFull (List.replicate ((a[y] : RowT).length) (none : Cell)) = false := by
        rw [hylen]
        decide
      have hdropNF : ∀ r ∈ a.drop (y + 1), rowFull r = false := by
        intro r hr
        obtain ⟨j, hj⟩ := List.mem_iff_getElem?.mp hr
        rw [List.getElem?_drop] at hj
        have hb := hbelow (y + 1 + j) (by omega)
        rw [List.getD_eq_getElem?_getD, hj] at hb
        simpa using hb
      have hsplit : a = a.take y ++ a[y] :: a.drop (y + 1) := by
        conv_lhs => rw [← List.take_append_drop y a]
        rw [List.drop_eq_getElem_cons hy]
      have herase : a.eraseIdx y = a.take y ++ a.drop (y + 1) :=
        List.eraseIdx_eq_take_drop_succ a y
      have hdropFnil : (a.drop (y + 1)).filter rowFull = [] :=
        List.filter_eq_nil_iff.mpr (fun r hr => by simp [hdropNF r hr])
      have hdropFself : (a.drop (y + 1)).filter (fun r => !rowFull r) = a.drop (y + 1) :=
        List.filter_eq_self.mpr (fun r hr => by simp [hdropNF r hr])
      have hfiltF : a.filter rowFull
          = (a.take y).filter rowFull ++ [a[y]] := by
        conv_lhs => rw [hsplit]
        rw [List.filter_append, List.filter_cons_of_pos hfull, hdropFnil]
      have hcount : (a.filter rowFull).length
          = ((a.take y).filter rowFull).length + 1 := by
        rw [hfiltF]
        simp
      have hfiltNF : a.filter (fun r => !rowFull r)
          = (a.take y).filter (fun r => !rowFull r) ++ a.drop (y + 1) := by
        conv_lhs => rw [hsplit]
        rw [List.filter_append, List.filter_cons_of_neg (by simp [hfull]), hdropFself]
      set a2 : List RowT := ((a[y] : RowT).map fun _ => (none : Cell)) :: a.eraseIdx y
        with ha2def
      have ha2len : a2.length = a.length := by
        rw [ha2def]
        simp only [List.length_cons, List.length_eraseIdx_of_lt hy]
        omega
      have ha2row : ∀ r ∈ a2, r.length = COLS := by
        intro r hr
        rw [ha2def] at hr
        rcases List.mem_cons.mp hr with h1 | h2
        · rw [h1, hhead, List.length_replicate]
        · exact hrow r ((List.eraseIdx_sublist a y).subset h2)
      have ha2getD : ∀ i, y < i → a2.getD i [] = a.getD i [] := by
        intro i hi
        obtain ⟨j, rfl⟩ : ∃ j, i = j + 1 := ⟨i - 1, by omega⟩
        rw [ha2def]
        rw [List.getD_eq_getElem?_getD, List.getD_eq_getElem?_getD,
            List.getElem?_cons_succ, herase,
            List.getElem?_append_right (by rw [List.length_take]; omega),
            List.getElem?_drop, List.length_take]
        congr 2
        omega
      have ha2below : ∀ i, y < i → rowFull (a2.getD i []) = false := by
        intro i hi
        rw [ha2getD i hi]
        exact hbelow i hi
      have ha2countF : (a2.filter rowFull).length = ((a.take y).filter rowFull).length := by
        rw [ha2def, List.filter_cons_of_neg (by simp [hheadNF, hheadNF2]),
            herase, List.filter_append, hdropFnil, List.append_nil]
      have ha2filtNF : a2.filter (fun r => !rowFull r)
          = List.replicate COLS (none : Cell)
              :: ((a.take y).filter (fun r => !rowFull r) ++ a.drop (y + 1)) := by
        rw [ha2def, List.filter_cons_of_pos (by simp [hheadNF, hheadNF2]),
            hhead, herase, List.filter_append, hdropFself]
      have hy2 : y < a2.length := by rw [ha2len]; exact hy
      have hf2 : (a2.filter rowFull).length + y + 1 ≤ f := by
        rw [ha2countF]
        rw [hcount] at hf
        omega
      have hih := ih y a2 (lines + 1) hy2 ha2row ha2below hf2
      rw [hih, hcount, hfiltNF, ha2countF, ha2filtNF]
      rw [List.replicate_succ']
      simp only [Prod.mk.injEq]
      constructor
      · simp [List.append_assoc]
      · omega
    | false =>
      simp only [Bool.false_eq_true, if_false]
      have hfull0 : rowFull (a.getD y []) = false := by rw [hgetD]; exact hfull
      by_cases hy0 : y = 0
      · subst hy0
        simp only [if_pos rfl]
        have hallNF : ∀ r ∈ a, rowFull r = false := by
          intro r hr
          obtain ⟨j, hj⟩ := List.mem_iff_getElem?.mp hr
          rcases Nat.eq_zero_or_pos j with hj0 | hjpos
          · subst hj0
            have hgd : a.getD 0 [] = r := by
              rw [List.getD_eq_getElem?_getD, hj]
              rfl
            rw [← hgd]
            exact hfull0
          · have hb := hbelow j (by omega)
            rw [List.getD_eq_getElem?_getD, hj] at hb
            simpa using hb
        have hcount0 : a.filter rowFull = [] :=
          List.filter_eq_nil_iff.mpr (fun r hr => by simp [hallNF r hr])
        have hNF0 : a.filter (fun r => !rowFull r) = a :=
          List.filter_eq_self.mpr (fun r hr => by simp [hallNF r hr])
        rw [hcount0, hNF0]
        simp
      · simp only [if_neg hy0]
        have hbelow2 : ∀ i, y - 1 < i → rowFull (a.getD i []) = false := by
          intro i hi
          by_cases hiy : i = y
          · rw [hiy]
            exact hfull0
          · exact hbelow i (by omega)
        exact ih (y - 1) a lines (by omega) hrow hbelow2 (by omega)

/-- Claim C7 (confirmed): for a 20x10 arena, `clearLines` removes exactly the
full rows, keeps the non-full rows in order (so rows below a cleared row are
unchanged and rows above shift down), inserts one empty row at the top per
removed row, and leaves exactly 20 rows. -/
theorem clearLines_removes_full_rows (a : List RowT) (h20 : a.length = ROWS)
    (hrow : ∀ r ∈ a, r.length = COLS) :
    clearLinesArena a =
      (List.replicate ((a.filter rowFull).length) (List.replicate COLS (none : Cell))
        ++ a.filter (fun r => !rowFull r),
       (a.filter rowFull).length) ∧
    (clearLinesArena a).1.length = ROWS := by
  have hR : ROWS = 20 := rfl
  have hlen : 0 < a.length := by omega
  have hbelow : ∀ i, a.length - 1 < i → rowFull (a.getD i []) = false := by
    intro i hi
    have hge : a.length ≤ i := by omega
    rw [List.getD_eq_default _ _ hge]
    exact rowFull_nil_eq
  have hfuel : (a.filter rowFull).length + (a.length - 1) + 1 ≤ 2 * a.length + 1 := by
    have := List.length_filter_le rowFull a
    omega
  have key := clearScan_correct (2 * a.length + 1) (a.length - 1) a 0
    (by omega) hrow hbelow hfuel
  constructor
  · rw [clearLinesArena, key]
    simp
  · rw [clearLinesArena, key]
    simp only [List.length_append, List.length_replicate]
    have hsplit := length_filter_split rowFull a
    omega

/-- Witness for `clearLines_removes_full_rows`: an arena whose bottom row is
full loses exactly that row and gains one empty row on top. -/
theorem clearLines_removes_full_rows_witness :
    fullBottomArena.length = ROWS ∧
    (clearLinesArena fullBottomArena =
      (List.replicate ((fullBottomArena.filter rowFull).length)
          (List.replicate COLS (none : Cell))
        ++ fullBottomArena.filter (fun r => !rowFull r),
       (fullBottomArena.filter rowFull).length) ∧
     (clearLinesArena fullBottomArena).1.length = ROWS) :=
  ⟨by decide,
   clearLines_removes_full_rows fullBottomArena (by decide) (by decide)⟩

end Sketchris
